import Mathlib

/-!
Verification of the storage abstraction layer of the trading-platform backend
(`src/database.py`): the in-memory mock document store (`MockCollection`,
`MockCursor`, `MockDB`), the startup store selector, and the helper operations
`create_document` / `get_documents`.

Modelling conventions (shallow embedding of the Python source):
* A Python value stored in a document is modelled by the inductive `Value`
  (strings, ints, bools, `None`, and `datetime` instants as abstract `Nat`
  clock readings).
* A Python `dict` is modelled as an insertion-ordered association list
  `List (String × Value)`; `d.get(k)` (which returns `None` for a missing
  key) is `dget`, `k in d` is `hasKey`, and `d[k] = v` is `dsetKey`.
* `uuid4()` draws are modelled by an external supply `gen : Nat → String`
  together with a counter in the world state counting the draws made so far;
  the standard assumption that `uuid4` never repeats becomes the hypothesis
  that `gen` is injective.
* `datetime.now(timezone.utc)` is modelled by passing the sampled instant
  `now : Nat` to `create_document`: `now` is, by construction, the instant the
  single clock read inside the call returns.
* Python truthiness of an `int` parameter (`if limit:`) is `≠ 0` on a present
  value; truthiness of an environment string is non-emptiness.
-/

namespace TradingBackend

/-- A Python value that can appear as a document field, a filter value, or an
environment setting. `time` models a `datetime` instant abstractly. -/
inductive Value where
  | none : Value
  | str : String → Value
  | int : Int → Value
  | bool : Bool → Value
  | time : Nat → Value
  deriving DecidableEq, Repr

/-- A document: a Python `dict` as an insertion-ordered association list. -/
abbrev Doc := List (String × Value)

/-- First-match lookup in an association list (Python `d[k]` / `d.get(k)`
before applying the default). -/
def alookup {α : Type} : List (String × α) → String → Option α
  | [], _ => Option.none
  | (k', v) :: rest, k => if k' = k then some v else alookup rest k

/-- Python `k in d`. -/
def hasKey (d : Doc) (k : String) : Bool := (alookup d k).isSome

/-- Python `d.get(k)`: the stored value, or `None` when the key is absent. -/
def dget (d : Doc) (k : String) : Value := (alookup d k).getD .none

/-- Replace the value stored under `k` in place, keeping the entry's
position (the effect of Python `d[k] = v` on a present key). -/
def overwrite : Doc → String → Value → Doc
  | [], _, _ => []
  | (k', v') :: rest, k, v =>
      if k' = k then (k, v) :: overwrite rest k v
      else (k', v') :: overwrite rest k v

/-- Python `d[k] = v`: overwrite the value in place when the key is present,
append the pair otherwise (dict insertion order). -/
def dsetKey (d : Doc) (k : String) (v : Value) : Doc :=
  if hasKey d k then overwrite d k v else d ++ [(k, v)]

/-- Python `str(...)` on a stored value (used for the returned inserted id). -/
def pyStr : Value → String
  | .none => "None"
  | .str s => s
  | .int n => toString n
  | .bool b => if b then "True" else "False"
  | .time t => toString t

/-- `MockCollection.find`'s inner `match`: every field of the filter must
compare equal (`d.get(k) != v` in the source, so a missing field reads as
`None`). -/
def matchFilter (filter_dict : Doc) (d : Doc) : Bool :=
  filter_dict.all fun kv => decide (dget d kv.1 = kv.2)

/-- `MockCollection.find`: the stored documents, in insertion order, that
match the filter. -/
def find (docs : List Doc) (filter_dict : Doc) : List Doc :=
  docs.filter (matchFilter filter_dict)

/-- Python list slicing `l[:n]`, as used by `MockCursor.limit`; a negative
`n` drops the last `-n` elements. -/
def pySlice (l : List Doc) (n : Int) : List Doc :=
  if 0 ≤ n then l.take n.toNat else l.take (l.length - (-n).toNat)

/-- The process-wide state: `MockDB._collections` (an insertion-ordered dict
from collection name to its `MockCollection._docs` list) together with the
number of `uuid4` draws made so far. -/
structure World where
  db : List (String × List Doc)
  uuidCtr : Nat
  deriving DecidableEq, Repr

/-- The state of a freshly constructed `MockDB` with an unused uuid supply. -/
def freshWorld : World := ⟨[], 0⟩

/-- `MockDB.__getitem__`: return the collection's documents, lazily creating
an empty collection on first access to an unseen name. Returns the documents
and the (possibly grown) collections dict. -/
def getitem (db : List (String × List Doc)) (name : String) :
    List Doc × List (String × List Doc) :=
  match alookup db name with
  | some docs => (docs, db)
  | Option.none => ([], db ++ [(name, [])])

/-- Write back a collection's document list after an insertion (the Python
code mutates the `MockCollection` object held in the dict). -/
def setColl : List (String × List Doc) → String → List Doc → List (String × List Doc)
  | [], _, _ => []
  | (k', v) :: rest, name, docs =>
      if k' = name then (name, docs) :: setColl rest name docs
      else (k', v) :: setColl rest name docs

/-- `MockCollection.insert_one`: assign a fresh `str(uuid4())` as `_id` when
the document carries none (consuming one draw from the supply), append the
document, and return the new document list, the new draw count, and the
`inserted_id` value. -/
def insert_one (gen : Nat → String) (ctr : Nat) (docs : List Doc) (doc : Doc) :
    List Doc × Nat × Value :=
  if hasKey doc "_id" then (docs ++ [doc], ctr, dget doc "_id")
  else
    let doc' := dsetKey doc "_id" (.str (gen ctr))
    (docs ++ [doc'], ctr + 1, dget doc' "_id")

/-- `MockDB.list_collection_names`. -/
def list_collection_names (w : World) : List String := w.db.map Prod.fst

/-- The documents currently stored in a collection (empty when the collection
does not exist yet). -/
def collDocs (w : World) (c : String) : List Doc := (alookup w.db c).getD []

/-- `create_document`: stamp `created_at`/`updated_at` with the sampled
instant `now`, insert into the named collection, and return the inserted id
stringified, together with the new world. (A pydantic payload is already
normalized to its mapping here, as `model_dump` produces one.) -/
def create_document (gen : Nat → String) (now : Nat) (w : World)
    (collection_name : String) (data : Doc) : String × World :=
  let data_dict := dsetKey (dsetKey data "created_at" (.time now)) "updated_at" (.time now)
  let got := getitem w.db collection_name
  let ins := insert_one gen w.uuidCtr got.1 data_dict
  (pyStr ins.2.2, ⟨setColl got.2 collection_name ins.1, ins.2.1⟩)

/-- `get_documents`: materialize the filtered documents, applying the limit
only when the Python `int` is truthy (`if limit:` — present and non-zero).
Returns the list and the new world (the read lazily creates the collection
via `db[collection_name]`). -/
def get_documents (w : World) (collection_name : String) (filter_dict : Option Doc)
    (limit : Option Int) : List Doc × World :=
  let got := getitem w.db collection_name
  let res := find got.1 (filter_dict.getD [])
  let res := match limit with
    | Option.none => res
    | some n => if n = 0 then res else pySlice res n
  (res, ⟨got.2, w.uuidCtr⟩)

/-- Which backend the store selector bound. -/
inductive StoreKind where
  | mock : StoreKind
  | real : StoreKind
  deriving DecidableEq, Repr

/-- Python truthiness of an optional environment string (`None` and `""` are
falsy). -/
def pyTruthyStr : Option String → Bool
  | Option.none => false
  | some s => s ≠ ""

/-- ASCII lower-casing of one character (Python `str.lower` restricted to
ASCII, which covers the configuration strings at issue). -/
def charLower (c : Char) : Char :=
  if 'A' ≤ c ∧ c ≤ 'Z' then Char.ofNat (c.toNat + 32) else c

/-- Python `s.lower()` (ASCII). -/
def pyLower (s : String) : String := String.mk (s.data.map charLower)

/-- `USE_MOCK_DB = (os.getenv("USE_MOCK_DB", "false").lower() == "true")`. -/
def parseUseMockDb (env : Option String) : Bool :=
  pyLower (env.getD "false") == "true"

/-- The module-level store selector (`database.py` lines 89–101): bind the
real database only when mock mode is not forced, the client library imported,
and both the connection string and database name are truthy; fall back to the
mock when the client construction raises. `ctorRaises` models whether
`MongoClient(database_url)` / `_client[database_name]` raises — per the
source comment, constructing the client performs no connectivity check, so an
unreachable (but well-formed) URL has `ctorRaises = false`. Returns the bound
store kind and `mongodb_available`. -/
def selectStore (useMock : Bool) (clientAvail : Bool) (url dbname : Option String)
    (ctorRaises : Bool) : StoreKind × Bool :=
  if ¬useMock ∧ clientAvail ∧ pyTruthyStr url ∧ pyTruthyStr dbname then
    if ctorRaises then (.mock, false) else (.real, true)
  else (.mock, false)

/-! ### Lemma toolbox for the association-list dict model -/

theorem alookup_append {α : Type} (l₁ l₂ : List (String × α)) (k : String) :
    alookup (l₁ ++ l₂) k =
      match alookup l₁ k with
      | some v => some v
      | Option.none => alookup l₂ k := by
  induction l₁ with
  | nil => simp [alookup]
  | cons p rest ih =>
      obtain ⟨k', v⟩ := p
      by_cases h : k' = k <;> simp [alookup, h, ih]

theorem alookup_getitem_fst (db : List (String × List Doc)) (n : String) :
    (getitem db n).1 = (alookup db n).getD [] := by
  unfold getitem
  cases alookup db n <;> simp

theorem alookup_getitem_snd_self (db : List (String × List Doc)) (n : String) :
    alookup (getitem db n).2 n = some ((alookup db n).getD []) := by
  unfold getitem
  cases h : alookup db n with
  | none => simp [alookup_append, h, alookup]
  | some docs => simp [h]

theorem alookup_getitem_snd_ne (db : List (String × List Doc)) {n m : String}
    (hne : m ≠ n) : alookup (getitem db n).2 m = alookup db m := by
  unfold getitem
  cases h : alookup db n with
  | none =>
      rw [alookup_append]
      cases alookup db m <;> simp [alookup, Ne.symm hne]
  | some docs => simp

theorem alookup_setColl_self (db : List (String × List Doc)) (n : String)
    (ds : List Doc) (h : (alookup db n).isSome) :
    alookup (setColl db n ds) n = some ds := by
  induction db with
  | nil => simp [alookup] at h
  | cons p rest ih =>
      obtain ⟨k', v⟩ := p
      by_cases hk : k' = n
      · simp [setColl, alookup, hk]
      · simp only [alookup, hk, if_false] at h
        simpa [setColl, alookup, hk] using ih h

theorem alookup_setColl_ne (db : List (String × List Doc)) {n m : String}
    (ds : List Doc) (hne : m ≠ n) :
    alookup (setColl db n ds) m = alookup db m := by
  induction db with
  | nil => simp [setColl]
  | cons p rest ih =>
      obtain ⟨k', v⟩ := p
      by_cases hk : k' = n
      · subst hk
        simp [setColl, alookup, Ne.symm hne, ih]
      · by_cases hm : k' = m <;> simp [setColl, alookup, hk, hm, hne, ih]

theorem alookup_overwrite_self (d : Doc) (k : String) (v : Value)
    (h : (alookup d k).isSome) : alookup (overwrite d k v) k = some v := by
  induction d with
  | nil => simp [alookup] at h
  | cons p rest ih =>
      obtain ⟨k', v'⟩ := p
      by_cases hk : k' = k
      · simp [overwrite, alookup, hk]
      · simp only [alookup, hk, if_false] at h
        simpa [overwrite, alookup, hk] using ih h

theorem alookup_overwrite_ne (d : Doc) {k k' : String} (v : Value)
    (hne : k' ≠ k) : alookup (overwrite d k v) k' = alookup d k' := by
  induction d with
  | nil => simp [overwrite]
  | cons p rest ih =>
      obtain ⟨a, b⟩ := p
      by_cases ha : a = k
      · subst ha
        simp [overwrite, alookup, Ne.symm hne, ih]
      · by_cases ha' : a = k' <;> simp [overwrite, alookup, ha, ha', hne, ih]

theorem alookup_dsetKey_self (d : Doc) (k : String) (v : Value) :
    alookup (dsetKey d k v) k = some v := by
  unfold dsetKey
  by_cases h : hasKey d k
  · simp only [h, if_true]
    exact alookup_overwrite_self d k v h
  · rw [if_neg h]
    rw [alookup_append]
    unfold hasKey at h
    cases hl : alookup d k
    · simp [alookup]
    · simp [hl] at h

theorem alookup_dsetKey_ne (d : Doc) {k k' : String} (v : Value) (hne : k' ≠ k) :
    alookup (dsetKey d k v) k' = alookup d k' := by
  unfold dsetKey
  by_cases h : hasKey d k
  · simp only [h, if_true]
    exact alookup_overwrite_ne d v hne
  · rw [if_neg h]
    rw [alookup_append]
    cases hl : alookup d k'
    · simp [alookup, Ne.symm hne]
    · simp

theorem hasKey_dsetKey_ne (d : Doc) {k k' : String} (v : Value) (hne : k' ≠ k) :
    hasKey (dsetKey d k v) k' = hasKey d k' := by
  unfold hasKey
  rw [alookup_dsetKey_ne d v hne]

theorem collDocs_eq (w : World) (c : String) :
    collDocs w c = (alookup w.db c).getD [] := rfl

/-! ### Structural lemmas about the two helper operations -/

/-- The timestamp-stamped dict built inside `create_document`. -/
def stampDoc (data : Doc) (now : Nat) : Doc :=
  dsetKey (dsetKey data "created_at" (.time now)) "updated_at" (.time now)

/-- The document that `create_document` actually appends to the collection:
the stamped payload, with a fresh `_id` attached when the payload carried
none. -/
def storedDoc (gen : Nat → String) (now : Nat) (ctr : Nat) (data : Doc) : Doc :=
  if hasKey (stampDoc data now) "_id" then stampDoc data now
  else dsetKey (stampDoc data now) "_id" (.str (gen ctr))

theorem hasKey_stampDoc_id (data : Doc) (now : Nat) :
    hasKey (stampDoc data now) "_id" = hasKey data "_id" := by
  unfold stampDoc
  rw [hasKey_dsetKey_ne _ _ (by decide), hasKey_dsetKey_ne _ _ (by decide)]

theorem alookup_stampDoc_created (data : Doc) (now : Nat) :
    alookup (stampDoc data now) "created_at" = some (.time now) := by
  unfold stampDoc
  rw [alookup_dsetKey_ne _ _ (by decide), alookup_dsetKey_self]

theorem alookup_stampDoc_updated (data : Doc) (now : Nat) :
    alookup (stampDoc data now) "updated_at" = some (.time now) := by
  unfold stampDoc
  rw [alookup_dsetKey_self]

theorem alookup_stampDoc_other (data : Doc) (now : Nat) {k : String}
    (h₁ : k ≠ "created_at") (h₂ : k ≠ "updated_at") :
    alookup (stampDoc data now) k = alookup data k := by
  unfold stampDoc
  rw [alookup_dsetKey_ne _ _ h₂, alookup_dsetKey_ne _ _ h₁]

theorem alookup_storedDoc_created (gen : Nat → String) (now ctr : Nat) (data : Doc) :
    alookup (storedDoc gen now ctr data) "created_at" = some (.time now) := by
  unfold storedDoc
  by_cases h : hasKey (stampDoc data now) "_id"
  · rw [if_pos h, alookup_stampDoc_created]
  · rw [if_neg h, alookup_dsetKey_ne _ _ (by decide), alookup_stampDoc_created]

theorem alookup_storedDoc_updated (gen : Nat → String) (now ctr : Nat) (data : Doc) :
    alookup (storedDoc gen now ctr data) "updated_at" = some (.time now) := by
  unfold storedDoc
  by_cases h : hasKey (stampDoc data now) "_id"
  · rw [if_pos h, alookup_stampDoc_updated]
  · rw [if_neg h, alookup_dsetKey_ne _ _ (by decide), alookup_stampDoc_updated]

theorem alookup_storedDoc_id (gen : Nat → String) (now ctr : Nat) (data : Doc)
    (h : hasKey data "_id" = false) :
    alookup (storedDoc gen now ctr data) "_id" = some (.str (gen ctr)) := by
  unfold storedDoc
  rw [hasKey_stampDoc_id, h]
  simp only [Bool.false_eq_true, if_false]
  rw [alookup_dsetKey_self]

/-- `create_document` appends exactly the stored document to the target
collection. -/
theorem collDocs_create_self (gen : Nat → String) (now : Nat) (w : World)
    (c : String) (data : Doc) :
    collDocs (create_document gen now w c data).2 c =
      collDocs w c ++ [storedDoc gen now w.uuidCtr data] := by
  unfold create_document insert_one storedDoc stampDoc collDocs
  by_cases h : hasKey (dsetKey (dsetKey data "created_at" (.time now)) "updated_at" (.time now)) "_id"
  · simp only [h, if_true]
    rw [alookup_setColl_self _ _ _ (by rw [alookup_getitem_snd_self]; rfl)]
    rw [alookup_getitem_fst]
    rfl
  · simp only [h, Bool.false_eq_true, if_false]
    rw [alookup_setColl_self _ _ _ (by rw [alookup_getitem_snd_self]; rfl)]
    rw [alookup_getitem_fst]
    rfl

/-- `create_document` leaves every other collection untouched. -/
theorem collDocs_create_ne (gen : Nat → String) (now : Nat) (w : World)
    {c c' : String} (data : Doc) (hne : c' ≠ c) :
    collDocs (create_document gen now w c data).2 c' = collDocs w c' := by
  unfold create_document collDocs
  rw [alookup_setColl_ne _ _ hne, alookup_getitem_snd_ne _ hne]

/-- The id string `create_document` returns when the payload carries no
`_id`: the next draw of the uuid supply. -/
theorem create_document_fst (gen : Nat → String) (now : Nat) (w : World)
    (c : String) (data : Doc) (h : hasKey data "_id" = false) :
    (create_document gen now w c data).1 = gen w.uuidCtr := by
  unfold create_document insert_one
  simp only [show (dsetKey (dsetKey data "created_at" (.time now)) "updated_at" (.time now)) = stampDoc data now from rfl,
    hasKey_stampDoc_id, h, Bool.false_eq_true, if_false]
  unfold dget
  rw [alookup_dsetKey_self]
  rfl

/-- `create_document` consumes exactly one uuid draw when the payload
carries no `_id`. -/
theorem create_document_ctr (gen : Nat → String) (now : Nat) (w : World)
    (c : String) (data : Doc) (h : hasKey data "_id" = false) :
    (create_document gen now w c data).2.uuidCtr = w.uuidCtr + 1 := by
  unfold create_document insert_one
  simp only [show (dsetKey (dsetKey data "created_at" (.time now)) "updated_at" (.time now)) = stampDoc data now from rfl,
    hasKey_stampDoc_id, h, Bool.false_eq_true, if_false]

/-- The list `get_documents` returns, as a function of the stored documents:
filter, then slice when the Python `int` limit is truthy. -/
theorem get_documents_fst (w : World) (c : String) (fd : Option Doc)
    (lim : Option Int) :
    (get_documents w c fd lim).1 =
      match lim with
      | Option.none => find (collDocs w c) (fd.getD [])
      | some n =>
          if n = 0 then find (collDocs w c) (fd.getD [])
          else pySlice (find (collDocs w c) (fd.getD [])) n := by
  unfold get_documents collDocs
  simp only [alookup_getitem_fst]

/-- A read changes no collection's stored documents (the lazily created
collection is empty, which `collDocs` already reports for an absent one). -/
theorem collDocs_get_snd (w : World) (c : String) (fd : Option Doc)
    (lim : Option Int) (c' : String) :
    collDocs (get_documents w c fd lim).2 c' = collDocs w c' := by
  unfold get_documents collDocs
  by_cases h : c' = c
  · subst h
    rw [alookup_getitem_snd_self]
    rfl
  · rw [alookup_getitem_snd_ne _ h]

theorem get_documents_ctr (w : World) (c : String) (fd : Option Doc)
    (lim : Option Int) :
    (get_documents w c fd lim).2.uuidCtr = w.uuidCtr := rfl

/-- An empty filter matches every document. -/
theorem matchFilter_nil (d : Doc) : matchFilter [] d = true := rfl

/-- The filter match, spelled out: every filter field must read back equal
via Python `d.get` (missing keys read as `None`). -/
theorem matchFilter_iff (fd d : Doc) :
    matchFilter fd d = true ↔ ∀ kv ∈ fd, dget d kv.1 = kv.2 := by
  unfold matchFilter
  rw [List.all_eq_true]
  constructor
  · intro h kv hkv
    exact of_decide_eq_true (h kv hkv)
  · intro h kv hkv
    exact decide_eq_true (h kv hkv)

/-! ### Traces of storage-layer operations -/

/-- One call into the storage layer: an insert or a query. -/
inductive Op where
  | create (c : String) (data : Doc) (now : Nat) : Op
  | query (c : String) (fd : Option Doc) (lim : Option Int) : Op

/-- The collection name an operation addresses. -/
def Op.cname : Op → String
  | .create c _ _ => c
  | .query c _ _ => c

/-- The world after one storage-layer call. -/
def applyOp (gen : Nat → String) (w : World) : Op → World
  | .create c data now => (create_document gen now w c data).2
  | .query c fd lim => (get_documents w c fd lim).2

/-- The world after a sequence of storage-layer calls. -/
def runOps (gen : Nat → String) (w : World) : List Op → World
  | [] => w
  | op :: rest => runOps gen (applyOp gen w op) rest

/-- Run a sequence of `create_document` calls, collecting the returned id
strings (each entry: collection name, payload, sampled instant). -/
def runCreates (gen : Nat → String) (w : World) :
    List (String × Doc × Nat) → List String × World
  | [] => ([], w)
  | (c, data, now) :: rest =>
      let r := create_document gen now w c data
      let rec' := runCreates gen r.2 rest
      (r.1 :: rec'.1, rec'.2)

/-! ### Heap-level view of `create_document` for the aliasing claim

The pure model above treats dicts as values, so Python's in-place mutation of
`data_dict` is invisible there. To reason about what happens to the caller's
dict object, this view makes the references explicit: a heap is a list of
dicts, a dict object is its index, and the three mutating statements of
`create_document` / `insert_one` are heap updates on the copy's reference. -/

/-- `create_document` at the level of dict references: `dict(data)` allocates
a fresh copy at the end of the heap, the two timestamp assignments and the
`_id` assignment of `insert_one` mutate that fresh reference only. Returns
the final heap and the reference of the stored dict. -/
def create_document_heap (heap : List Doc) (dataRef : Nat) (genId : String)
    (now : Nat) : List Doc × Nat :=
  let copied := heap.getD dataRef []
  let r := heap.length
  let heap1 := heap ++ [copied]
  let stamped := dsetKey (dsetKey copied "created_at" (.time now)) "updated_at" (.time now)
  let heap2 := heap1.set r stamped
  let d := heap2.getD r []
  let heap3 := if hasKey d "_id" then heap2 else heap2.set r (dsetKey d "_id" (.str genId))
  (heap3, r)

/-- With no filter (or an empty one), every stored document is returned. -/
theorem find_no_filter (docs : List Doc) : find docs [] = docs := by
  simp [find, matchFilter]

/-! ### The claims -/

/-- C5: when the `USE_MOCK_DB` environment flag is the string `"true"`, the
store selector binds the in-memory store and records the external backend
unavailable, regardless of client-library availability, connection string,
database name, or whether client construction would raise; subsequent
`create_document`/`get_documents` calls therefore run against the in-memory
`MockDB` state, never an external backend. -/
theorem c5_use_mock_db_forces_mock (avail : Bool) (url dbname : Option String)
    (ctorRaises : Bool) :
    selectStore (parseUseMockDb (some "true")) avail url dbname ctorRaises
      = (.mock, false) := by
  have h : parseUseMockDb (some "true") = true := by decide
  rw [h]
  simp [selectStore]

/-- C4 counterexample: with mock mode off, the client library importable, and
a well-formed connection string that merely points at an unreachable host,
client construction does not raise (the source comments that no connectivity
check happens until first use), so the selector binds the EXTERNAL store and
marks it available — not the in-memory store required by the claim. -/
theorem c4_counterexample_unreachable_binds_external :
    selectStore (parseUseMockDb Option.none) true
      (some "mongodb://unreachable-host:27017") (some "tradingdb") false
      = (.real, true) ∧ StoreKind.real ≠ StoreKind.mock := by
  exact ⟨by decide, by decide⟩

/-- C4 amended: module initialization never raises; the selector falls back
to the in-memory store exactly when client construction raises (and the
in-memory store then serves inserts and queries — a create followed by an
unfiltered get returns the single stored document), while an unreachable host
does not make construction raise, so with full configuration the external
store is bound and recorded available. -/
theorem c4_amended_fallback_only_on_ctor_error :
    (∀ (avail : Bool) (url dbname : Option String),
      selectStore false avail url dbname true = (.mock, false)) ∧
    (∀ url dbname : Option String, pyTruthyStr url → pyTruthyStr dbname →
      selectStore false true url dbname false = (.real, true)) ∧
    (∀ (gen : Nat → String) (now : Nat) (c : String) (D : Doc),
      ((get_documents ((create_document gen now freshWorld c D).2) c
          Option.none Option.none).1).length = 1) := by
  refine ⟨?_, ?_, ?_⟩
  · intro avail url dbname
    unfold selectStore
    by_cases h : ¬False ∧ avail = true ∧ pyTruthyStr url = true ∧ pyTruthyStr dbname = true
    · simp [h]
    · simp [selectStore]
  · intro url dbname hu hd
    simp [selectStore, hu, hd]
  · intro gen now c D
    simp only [get_documents_fst, Option.getD_none]
    rw [collDocs_create_self, find_no_filter]
    simp [freshWorld, collDocs, alookup]

/-- C4 witness: the amended selector behavior at a concrete unreachable-host
configuration. -/
theorem c4_amended_fallback_only_on_ctor_error_witness :
    pyTruthyStr (some "mongodb://unreachable-host:27017") = true ∧
    selectStore false true (some "mongodb://unreachable-host:27017")
      (some "tradingdb") true = (.mock, false) ∧
    selectStore false true (some "mongodb://unreachable-host:27017")
      (some "tradingdb") false = (.real, true) :=
  ⟨by decide,
   c4_amended_fallback_only_on_ctor_error.1 true
     (some "mongodb://unreachable-host:27017") (some "tradingdb"),
   c4_amended_fallback_only_on_ctor_error.2.1
     (some "mongodb://unreachable-host:27017") (some "tradingdb")
     (by decide) (by decide)⟩

/-- C2 counterexample: after storing one document that has no `"x"` field,
querying with the filter `{"x": None}` RETURNS that document (Python
`d.get("x")` reads the missing field as `None`, which equals the expected
value), whereas the claim requires every document missing a filtered field to
be excluded. -/
theorem c2_counterexample_none_filter_matches_missing :
    ((get_documents ((create_document (fun _ => "id0") 0 freshWorld "items" []).2)
        "items" (some [("x", Value.none)]) Option.none).1).map (fun d => hasKey d "x")
      = [false] := by decide

/-- C2 amended: `get_documents(C, F)` returns exactly the stored documents
`d` such that every field named in `F` reads back equal through Python
`d.get` — a missing field reads as `None`, so documents missing a filtered
field are excluded precisely when the expected value is not `None`. -/
theorem c2_amended_filter_semantics (w : World) (c : String) (F : Doc) (d : Doc) :
    d ∈ (get_documents w c (some F) Option.none).1 ↔
      d ∈ collDocs w c ∧ ∀ kv ∈ F, dget d kv.1 = kv.2 := by
  simp only [get_documents_fst, Option.getD_some]
  unfold find
  rw [List.mem_filter, matchFilter_iff]

/-- C3 counterexample: with one stored document, `get_documents` with
`limit = 0` returns that document anyway (`if limit:` is false for the Python
int `0`, so no truncation happens), violating "at most `n` documents" at the
non-negative integer `n = 0`. -/
theorem c3_counterexample_limit_zero :
    ¬(((get_documents ((create_document (fun _ => "id0") 0 freshWorld "c" []).2)
        "c" Option.none (some 0)).1).length ≤ 0) := by decide

/-- C3 amended: for a POSITIVE limit `n`, `get_documents(C, F, limit=n)` is
exactly the first `n` entries, in insertion order, of the unlimited result
(hence at most `n` documents and a prefix of it); for `n = 0` the limit is
ignored and the full unlimited result is returned. -/
theorem c3_amended_limit_law (w : World) (c : String) (fd : Option Doc) (n : Int) :
    (0 < n → (get_documents w c fd (some n)).1
        = ((get_documents w c fd Option.none).1).take n.toNat) ∧
    (n = 0 → (get_documents w c fd (some n)).1
        = (get_documents w c fd Option.none).1) := by
  constructor
  · intro hp
    simp only [get_documents_fst]
    have hn0 : ¬(n = 0) := by omega
    simp only [hn0, if_false]
    unfold pySlice
    rw [if_pos (le_of_lt hp)]
  · intro h0
    subst h0
    simp [get_documents_fst]

/-- C3 witness: the amended limit law at `n = 2` over a concrete store. -/
theorem c3_amended_limit_law_witness :
    (0 : Int) < 2 ∧
    (get_documents ((create_document (fun _ => "id0") 0 freshWorld "c" []).2)
        "c" Option.none (some 2)).1
      = ((get_documents ((create_document (fun _ => "id0") 0 freshWorld "c" []).2)
        "c" Option.none Option.none).1).take (2 : Int).toNat :=
  ⟨by decide,
   (c3_amended_limit_law ((create_document (fun _ => "id0") 0 freshWorld "c" []).2)
     "c" Option.none 2).1 (by decide)⟩

/-- C9: reads are idempotent — two `get_documents` calls with the same
collection, filter and limit, with no insert in between, return the same
sequence (the first call's only state effect is lazily creating an empty
collection, which does not change any collection's stored documents). -/
theorem c9_get_documents_idempotent (w : World) (c : String) (fd : Option Doc)
    (lim : Option Int) :
    (get_documents ((get_documents w c fd lim).2) c fd lim).1
      = (get_documents w c fd lim).1 := by
  cases lim with
  | none => simp only [get_documents_fst, collDocs_get_snd]
  | some n => simp only [get_documents_fst, collDocs_get_snd]

/-- C1: inserting a payload `D` (with none of the three layer-assigned field
names) into a collection that holds no documents, then reading the collection
back with no filter, yields exactly one document, which carries every field
of `D` unchanged plus the assigned `_id` (the fresh uuid draw, stringified
into the stored value) and the `created_at`/`updated_at` stamps — and this
holds for the world `create_document` returns, i.e. immediately. -/
theorem c1_create_then_get_singleton (gen : Nat → String) (now : Nat) (w : World)
    (c : String) (D : Doc)
    (hempty : collDocs w c = [])
    (hid : hasKey D "_id" = false)
    (hca : hasKey D "created_at" = false)
    (hua : hasKey D "updated_at" = false) :
    ∃ d : Doc,
      (get_documents ((create_document gen now w c D).2) c
        Option.none Option.none).1 = [d] ∧
      (∀ k v, alookup D k = some v → alookup d k = some v) ∧
      alookup d "_id" = some (.str (gen w.uuidCtr)) ∧
      alookup d "created_at" = some (.time now) ∧
      alookup d "updated_at" = some (.time now) := by
  refine ⟨storedDoc gen now w.uuidCtr D, ?_, ?_, ?_, ?_, ?_⟩
  · simp only [get_documents_fst, Option.getD_none]
    rw [collDocs_create_self, hempty, find_no_filter, List.nil_append]
  · intro k v hk
    have hkid : k ≠ "_id" := by
      intro he; subst he; unfold hasKey at hid; rw [hk] at hid; simp at hid
    have hkca : k ≠ "created_at" := by
      intro he; subst he; unfold hasKey at hca; rw [hk] at hca; simp at hca
    have hkua : k ≠ "updated_at" := by
      intro he; subst he; unfold hasKey at hua; rw [hk] at hua; simp at hua
    unfold storedDoc
    rw [hasKey_stampDoc_id, hid]
    simp only [Bool.false_eq_true, if_false]
    rw [alookup_dsetKey_ne _ _ hkid, alookup_stampDoc_other _ _ hkca hkua, hk]
  · exact alookup_storedDoc_id gen now w.uuidCtr D hid
  · exact alookup_storedDoc_created gen now w.uuidCtr D
  · exact alookup_storedDoc_updated gen now w.uuidCtr D

/-- C1 witness: a concrete watchlist payload inserted into the fresh store. -/
theorem c1_create_then_get_singleton_witness :
    (collDocs freshWorld "watchlistitem" = [] ∧
     hasKey [("user_id", Value.str "u1")] "_id" = false ∧
     hasKey [("user_id", Value.str "u1")] "created_at" = false ∧
     hasKey [("user_id", Value.str "u1")] "updated_at" = false) ∧
    ∃ d : Doc,
      (get_documents ((create_document (fun _ => "tok") 7 freshWorld "watchlistitem"
          [("user_id", Value.str "u1")]).2) "watchlistitem"
        Option.none Option.none).1 = [d] ∧
      (∀ k v, alookup [("user_id", Value.str "u1")] k = some v →
        alookup d k = some v) ∧
      alookup d "_id" = some (.str "tok") ∧
      alookup d "created_at" = some (.time 7) ∧
      alookup d "updated_at" = some (.time 7) :=
  ⟨⟨rfl, rfl, rfl, rfl⟩,
   c1_create_then_get_singleton (fun _ => "tok") 7 freshWorld "watchlistitem"
     [("user_id", Value.str "u1")] rfl rfl rfl rfl⟩

/-- C8: the document `create_document` stores carries
`created_at = updated_at`, both equal to the instant `now` sampled by the
single clock read inside the call (hence an instant lying between entry and
return), for every payload; and no operation of this layer changes a stored
document afterward — an insert only appends to its target collection and
leaves every other collection untouched, and a read changes no collection's
stored documents. -/
theorem c8_timestamps_equal_and_immutable (gen : Nat → String) (now : Nat)
    (w : World) (c : String) (D : Doc) :
    (alookup (storedDoc gen now w.uuidCtr D) "created_at" = some (.time now) ∧
     alookup (storedDoc gen now w.uuidCtr D) "updated_at" = some (.time now)) ∧
    collDocs (create_document gen now w c D).2 c
      = collDocs w c ++ [storedDoc gen now w.uuidCtr D] ∧
    (∀ c' : String, c' ≠ c →
      collDocs (create_document gen now w c D).2 c' = collDocs w c') ∧
    (∀ (cq : String) (fd : Option Doc) (lim : Option Int) (c' : String),
      collDocs (get_documents w cq fd lim).2 c' = collDocs w c') := by
  refine ⟨⟨alookup_storedDoc_created gen now w.uuidCtr D,
          alookup_storedDoc_updated gen now w.uuidCtr D⟩,
    collDocs_create_self gen now w c D, ?_, ?_⟩
  · intro c' hne
    exact collDocs_create_ne gen now w D hne
  · intro cq fd lim c'
    exact collDocs_get_snd w cq fd lim c'

/-- C8 witness: the untouched-other-collection part at a concrete distinct
collection name, plus the concrete timestamp fields. -/
theorem c8_timestamps_equal_and_immutable_witness :
    ("layout" ≠ "order") ∧
    collDocs ((create_document (fun _ => "t0") 3 freshWorld "order" []).2) "layout"
      = collDocs freshWorld "layout" ∧
    alookup (storedDoc (fun _ => "t0") 3 freshWorld.uuidCtr []) "created_at"
      = some (.time 3) ∧
    alookup (storedDoc (fun _ => "t0") 3 freshWorld.uuidCtr []) "updated_at"
      = some (.time 3) :=
  ⟨by decide,
   (c8_timestamps_equal_and_immutable (fun _ => "t0") 3 freshWorld "order" []).2.2.1
     "layout" (by decide),
   (c8_timestamps_equal_and_immutable (fun _ => "t0") 3 freshWorld "order" []).1.1,
   (c8_timestamps_equal_and_immutable (fun _ => "t0") 3 freshWorld "order" []).1.2⟩

/-- A name with a stored entry is among the dict's keys. -/
theorem mem_keys_of_alookup {α : Type} (db : List (String × α)) (n : String)
    (v : α) (h : alookup db n = some v) : n ∈ db.map Prod.fst := by
  induction db with
  | nil => simp [alookup] at h
  | cons p rest ih =>
      obtain ⟨k', v'⟩ := p
      by_cases hk : k' = n
      · simp [hk]
      · simp only [alookup, hk, if_false] at h
        simp [ih h]

/-- Writing a collection back does not change the set of known names. -/
theorem keys_setColl (db : List (String × List Doc)) (n : String) (ds : List Doc) :
    (setColl db n ds).map Prod.fst = db.map Prod.fst := by
  induction db with
  | nil => simp [setColl]
  | cons p rest ih =>
      obtain ⟨k', v⟩ := p
      by_cases hk : k' = n <;> simp [setColl, hk, ih]

/-- Lazy collection access adds exactly the accessed name to the known
names. -/
theorem mem_keys_getitem (db : List (String × List Doc)) (n c : String) :
    c ∈ ((getitem db n).2.map Prod.fst) ↔ c ∈ db.map Prod.fst ∨ c = n := by
  unfold getitem
  cases h : alookup db n with
  | none => simp
  | some docs =>
      simp only
      constructor
      · exact Or.inl
      · rintro (hc | rfl)
        · exact hc
        · exact mem_keys_of_alookup db c docs h

/-- One storage-layer call adds exactly its collection name to the known
names. -/
theorem mem_names_applyOp (gen : Nat → String) (w : World) (op : Op) (c : String) :
    c ∈ list_collection_names (applyOp gen w op) ↔
      c ∈ list_collection_names w ∨ c = op.cname := by
  cases op with
  | query cq fd lim =>
      unfold applyOp get_documents list_collection_names Op.cname
      simp only
      exact mem_keys_getitem w.db cq c
  | create cc data now =>
      unfold applyOp create_document list_collection_names Op.cname
      simp only
      rw [keys_setColl]
      exact mem_keys_getitem w.db cc c

/-- Over a trace, the known names are the start names plus every accessed
name. -/
theorem mem_names_runOps (gen : Nat → String) (ops : List Op) :
    ∀ (w : World) (c : String),
      c ∈ list_collection_names (runOps gen w ops) ↔
        c ∈ list_collection_names w ∨ c ∈ ops.map Op.cname := by
  induction ops with
  | nil => intro w c; simp [runOps]
  | cons op rest ih =>
      intro w c
      unfold runOps
      rw [ih (applyOp gen w op) c, mem_names_applyOp]
      simp only [List.map_cons, List.mem_cons]
      tauto

/-- C6 counterexample: querying a never-inserted collection name on the fresh
store returns no documents, yet afterwards `list_collection_names` reports
that name (the read lazily created the collection), so a name that has never
received an insertion does appear. -/
theorem c6_counterexample_query_creates_collection :
    (get_documents freshWorld "queriedonly" Option.none Option.none).1 = [] ∧
    list_collection_names
        ((get_documents freshWorld "queriedonly" Option.none Option.none).2)
      = ["queriedonly"] := by decide

/-- C6 amended: starting from the fresh store, `list_collection_names`
reports exactly the names ACCESSED so far — a name appears iff some
`create_document` or `get_documents` call addressed it, since collections are
lazily created on first read or write (so a queried-but-never-inserted name
does appear). -/
theorem c6_amended_names_iff_accessed (gen : Nat → String) (ops : List Op)
    (c : String) :
    c ∈ list_collection_names (runOps gen freshWorld ops) ↔
      c ∈ ops.map Op.cname := by
  rw [mem_names_runOps]
  simp [freshWorld, list_collection_names]

/-- The ids a run of `create_document` calls returns, when no payload carries
its own `_id`: consecutive draws of the uuid supply, starting at the current
draw count. -/
theorem runCreates_ids (gen : Nat → String) (ps : List (String × Doc × Nat)) :
    ∀ w : World, (∀ p ∈ ps, hasKey p.2.1 "_id" = false) →
      (runCreates gen w ps).1
          = (List.range ps.length).map (fun i => gen (w.uuidCtr + i)) ∧
      (runCreates gen w ps).2.uuidCtr = w.uuidCtr + ps.length := by
  induction ps with
  | nil => intro w _; simp [runCreates]
  | cons p rest ih =>
      intro w h
      obtain ⟨c, D, now⟩ := p
      have hD : hasKey D "_id" = false := h (c, D, now) (List.mem_cons_self _ _)
      have hrest : ∀ q ∈ rest, hasKey q.2.1 "_id" = false :=
        fun q hq => h q (List.mem_cons_of_mem _ hq)
      have hctr := create_document_ctr gen now w c D hD
      obtain ⟨ihids, ihctr⟩ := ih (create_document gen now w c D).2 hrest
      unfold runCreates
      simp only
      constructor
      · rw [create_document_fst gen now w c D hD, ihids, hctr]
        simp only [List.length_cons]
        rw [List.range_succ_eq_map, List.map_cons, List.map_map]
        have hfun : ((fun i => gen (w.uuidCtr + i)) ∘ Nat.succ)
            = fun i => gen (w.uuidCtr + 1 + i) :=
          funext fun i => congrArg gen (by omega)
        rw [hfun]
        simp
      · rw [ihctr, hctr]
        simp only [List.length_cons]
        omega

/-- C7: assuming the uuid supply never repeats (injectivity, the model of
`uuid4`'s uniqueness), the id strings returned by any sequence of
`create_document` calls whose payloads carry no caller-supplied `_id` are
pairwise distinct — in particular any two distinct documents inserted into
the same collection receive different identifiers, and the uniqueness
invariant is preserved by every insert. -/
theorem c7_inserted_ids_distinct (gen : Nat → String)
    (hg : Function.Injective gen) (w : World)
    (ps : List (String × Doc × Nat))
    (h : ∀ p ∈ ps, hasKey p.2.1 "_id" = false) :
    ((runCreates gen w ps).1).Nodup := by
  rw [(runCreates_ids gen ps w h).1]
  refine List.Nodup.map ?_ (List.nodup_range ps.length)
  intro a b hab
  have := hg hab
  omega

/-- An injective concrete uuid supply for the witness: `n` letters `a`. -/
def aSupply (n : Nat) : String := String.mk (List.replicate n 'a')

theorem aSupply_injective : Function.Injective aSupply := by
  intro a b h
  have hd := congrArg String.data h
  simp [aSupply] at hd
  exact hd

/-- C7 witness: two concrete inserts into the same collection under the
injective supply yield distinct ids. -/
theorem c7_inserted_ids_distinct_witness :
    Function.Injective aSupply ∧
    (∀ p ∈ [("order", ([("s", Value.str "AAPL")] : Doc), 1),
            ("order", ([] : Doc), 2)], hasKey p.2.1 "_id" = false) ∧
    ((runCreates aSupply freshWorld
        [("order", [("s", Value.str "AAPL")], 1), ("order", [], 2)]).1).Nodup :=
  ⟨aSupply_injective, by decide,
   c7_inserted_ids_distinct aSupply aSupply_injective freshWorld
     [("order", [("s", Value.str "AAPL")], 1), ("order", [], 2)] (by decide)⟩

/-- C10: `create_document` does not mutate the caller's dict. In the
heap-level view, the call allocates a fresh copy (`dict(data)`) and performs
the timestamp and `_id` assignments on that fresh reference only, so the
heap cell of the caller's dict is unchanged — it holds exactly the top-level
fields it held before — and the stored dict is a different reference. -/
theorem c10_create_document_heap_frame (heap : List Doc) (dataRef : Nat)
    (genId : String) (now : Nat) (h : dataRef < heap.length) :
    ((create_document_heap heap dataRef genId now).1)[dataRef]?
        = heap[dataRef]? ∧
    (create_document_heap heap dataRef genId now).2 ≠ dataRef := by
  have hne : heap.length ≠ dataRef := by omega
  constructor
  · unfold create_document_heap
    simp only
    by_cases hk :
        hasKey (((heap ++ [heap.getD dataRef []]).set heap.length
          (dsetKey (dsetKey (heap.getD dataRef []) "created_at" (.time now))
            "updated_at" (.time now))).getD heap.length []) "_id"
    · rw [if_pos hk]
      rw [List.getElem?_set_ne hne, List.getElem?_append, if_pos h]
    · rw [if_neg hk]
      rw [List.getElem?_set_ne hne, List.getElem?_set_ne hne,
        List.getElem?_append, if_pos h]
  · unfold create_document_heap
    simp only
    omega

/-- C10 witness: a concrete one-dict heap. -/
theorem c10_create_document_heap_frame_witness :
    0 < ([[("a", Value.int 1)]] : List Doc).length ∧
    ((create_document_heap [[("a", Value.int 1)]] 0 "id0" 5).1)[0]?
        = ([[("a", Value.int 1)]] : List Doc)[0]? ∧
    (create_document_heap [[("a", Value.int 1)]] 0 "id0" 5).2 ≠ 0 :=
  ⟨by decide,
   (c10_create_document_heap_frame [[("a", Value.int 1)]] 0 "id0" 5 (by decide)).1,
   (c10_create_document_heap_frame [[("a", Value.int 1)]] 0 "id0" 5 (by decide)).2⟩

end TradingBackend
